import Mathlib

/-!
Shallow embedding of the external integration protocol of the MYZ Dice
Owlbear Rodeo extension: the BroadcastChannel message handling in
`src/plugin/ExternalRollHandler.tsx` (roll triggering, availability
handshake) and the `MYZDiceAPI` class (pending-roll registry, completion
detection over shared roll values).

JavaScript records (`Record<string, number>`) are modelled as association
lists with JS object-assignment semantics (update in place, else append);
JS `undefined`/optional fields as `Option`; numbers as `Int`.
-/

/-- A catalog die entry, one value of the controls store's `diceById`
record: local identity `id`, a `style` string and a die `dtype` string. -/
structure Die where
  id : String
  style : String
  dtype : String
deriving DecidableEq

/-- One entry of `config.dice` in an external roll request: a style name
plus an optional count (`count?: number`). -/
structure DiceConfig where
  style : String
  count : Option Int
deriving DecidableEq

/-- JS `diceConfig.count || 1`: `undefined` and `0` are falsy and give 1;
any other number (negative included) passes through unchanged. -/
def jsOrOne : Option Int → Int
  | none => 1
  | some v => if v = 0 then 1 else v

/-- `Object.values(diceById).find(die => die.style === diceConfig.style)`
from `handleExternalRoll` (style-only match, first catalog entry wins). -/
def findMatchingDie (diceById : List Die) (style : String) : Option Die :=
  diceById.find? (fun die => die.style == style)

/-- `Object.values(diceById).find(die => die.style === diceConfig.style &&
die.type === diceConfig.type)` from `MYZDiceAPI.triggerRoll` /
`triggerRollAsync` (style and type must both match). -/
def findMatchingDieTyped (diceById : List Die) (style dtype : String) : Option Die :=
  diceById.find? (fun die => die.style == style && die.dtype == dtype)

/-- JS object assignment `obj[k] = v` on a string-keyed record: replace the
value of an existing key, otherwise append the new key. -/
def recordSet : List (String × Int) → String → Int → List (String × Int)
  | [], k, v => [(k, v)]
  | p :: rest, k, v => if p.1 == k then (k, v) :: rest else p :: recordSet rest k v

/-- JS object read `obj[k]` on a string-keyed record. -/
def recordGet (m : List (String × Int)) (k : String) : Option Int :=
  (m.find? (fun p => p.1 == k)).map (fun p => p.2)

/-- The dice-count accumulation loop of `handleExternalRoll`:
`config.dice.forEach(...)` building `diceCounts`, where a matched
descriptor stores `diceConfig.count || 1` under the matched die's id and an
unmatched descriptor only logs a warning. -/
def handleRollDiceCounts (diceById : List Die) (dice : List DiceConfig) : List (String × Int) :=
  dice.foldl (fun m cfg =>
    match findMatchingDie diceById cfg.style with
    | some die => recordSet m die.id (jsOrOne cfg.count)
    | none => m) []

/-- The dice-count accumulation loop of the global `MYZDiceAPI.triggerRoll`
exposed by `GlobalAPIExporter`: same `forEach` over `config.dice`, matching
on style and storing `diceConfig.count || 1`. -/
def apiTriggerRollDiceCounts (diceById : List Die) (dice : List DiceConfig) : List (String × Int) :=
  dice.foldl (fun m cfg =>
    match findMatchingDie diceById cfg.style with
    | some die => recordSet m die.id (jsOrOne cfg.count)
    | none => m) []

/-- After building `diceCounts`, `handleExternalRoll` submits
`startRoll({ dice: getDiceToRoll(diceCounts, null, diceById), hidden })`.
`getDiceToRoll` lives outside this module, so the submitted roll is
represented by applying an arbitrary function `g` standing for it to
exactly the arguments the code passes, paired with the `hidden` flag. -/
def handleExternalRollSubmitted {α : Type} (g : List (String × Int) → Option Bool → List Die → α)
    (diceById : List Die) (dice : List DiceConfig) (hidden : Option Bool) : α × Option Bool :=
  (g (handleRollDiceCounts diceById dice) none diceById, hidden)

/-- The roll submitted by the global `MYZDiceAPI.triggerRoll` of
`GlobalAPIExporter`: `startRoll({ dice: getDiceToRoll(diceCounts, null,
diceById), hidden })`, with the same uninterpreted `g` for `getDiceToRoll`. -/
def apiTriggerRollSubmitted {α : Type} (g : List (String × Int) → Option Bool → List Die → α)
    (diceById : List Die) (dice : List DiceConfig) (hidden : Option Bool) : α × Option Bool :=
  (g (apiTriggerRollDiceCounts diceById dice) none diceById, hidden)

/-- Probe result shape `{ available: boolean; version?: string }`. -/
structure AvailResult where
  available : Bool
  version : Option String
deriving DecidableEq

/-- The wire-level message union on the `myz-dice-integration` channel:
`ExternalRollRequest`, `AvailabilityRequest`, `AvailabilityResponse`. -/
inductive Message where
  | triggerRoll (rollId : String) (dice : List DiceConfig) (hidden : Option Bool)
  | checkAvailability (requestId : String)
  | availabilityResponse (requestId : String) (available : Bool) (version : Option String)
deriving DecidableEq

/-- Effect of one `channel.onmessage` dispatch in `ExternalRollHandler`:
the messages it publishes back on the channel and the dice-count/hidden
pairs it submits to `startRoll`. -/
structure HandlerEffect where
  published : List Message
  started : List (List (String × Int) × Option Bool)
deriving DecidableEq

/-- `channel.onmessage` of `ExternalRollHandler`: a `TRIGGER_ROLL` message
goes to `handleExternalRoll` (builds dice counts, starts the roll), a
`CHECK_AVAILABILITY` message goes to `handleAvailabilityCheck` (publishes
one `AVAILABILITY_RESPONSE` echoing the requestId with `available: true`
and version `"1.0.0"`), anything else is only logged. -/
def responderOnMessage (diceById : List Die) (m : Message) : HandlerEffect :=
  match m with
  | .triggerRoll _ dice hidden =>
      { published := [], started := [(handleRollDiceCounts diceById dice, hidden)] }
  | .checkAvailability rid =>
      { published := [.availabilityResponse rid true (some "1.0.0")], started := [] }
  | .availabilityResponse _ _ _ =>
      { published := [], started := [] }

/-- State of one `checkMYZDiceAvailability` call: its `resolved` flag, the
value the promise was resolved with (if any), and how many times `resolve`
has been invoked. -/
structure ProbeState where
  resolved : Bool
  result : Option AvailResult
  settleCount : Nat
deriving DecidableEq

/-- Initial probe state: `let resolved = false`, promise pending. -/
def probeInitState : ProbeState := ⟨false, none, 0⟩

/-- An event delivered to a pending `checkMYZDiceAvailability` call: a
channel message arriving at its `onmessage`, or its `setTimeout` firing. -/
inductive ProbeEvent where
  | deliver (m : Message)
  | timeoutFire
deriving DecidableEq

/-- One event step of `checkMYZDiceAvailability`: the timeout callback
resolves `{available: false}` unless `resolved` is already set; an
`AVAILABILITY_RESPONSE` whose `requestId` matches resolves
`{available, version}` from the response unless `resolved` is already set;
every other message is ignored by the `type`/`requestId` filter. -/
def probeStep (requestId : String) (s : ProbeState) (e : ProbeEvent) : ProbeState :=
  match e with
  | .timeoutFire =>
      if s.resolved then s
      else ⟨true, some ⟨false, none⟩, s.settleCount + 1⟩
  | .deliver (.availabilityResponse rid avail ver) =>
      if rid == requestId then
        if s.resolved then s else ⟨true, some ⟨avail, ver⟩, s.settleCount + 1⟩
      else s
  | .deliver _ => s

/-- A whole delivery history processed by one probe, in arrival order. -/
def probeRun (requestId : String) (events : List ProbeEvent) : ProbeState :=
  events.foldl (probeStep requestId) probeInitState

/-- Whether an event settles the probe with correlation id `requestId`:
the timeout firing, or a matching availability response arriving. -/
def isSettlingEvent (requestId : String) (e : ProbeEvent) : Bool :=
  match e with
  | .timeoutFire => true
  | .deliver (.availabilityResponse rid _ _) => rid == requestId
  | .deliver _ => false

/-- The value a settling event resolves the probe's promise with. -/
def settleValueOf : ProbeEvent → Option AvailResult
  | .timeoutFire => some ⟨false, none⟩
  | .deliver (.availabilityResponse _ avail ver) => some ⟨avail, ver⟩
  | .deliver _ => none

/-- The value of the first settling event of a delivery history: what the
spec says the probe's promise must settle with. -/
def firstSettleValue (requestId : String) (events : List ProbeEvent) : Option AvailResult :=
  (events.find? (isSettlingEvent requestId)).bind settleValueOf

/-- `Object.values(rollValues).every(value => value !== null)` — the
completion predicate of `MYZDiceAPI` over a shared roll-values record. -/
def allFinished (rollValues : List (String × Option Int)) : Bool :=
  rollValues.all (fun p => p.2.isSome)

/-- The `finalValue` accumulation of the `OBR.party.onChange` handler:
iterate the entries of `rollValues` and add every non-null value. -/
def computeFinalValue (rollValues : List (String × Option Int)) : Int :=
  rollValues.foldl (fun acc p => match p.2 with | some v => acc + v | none => acc) 0

/-- The pending-rolls drain of the `OBR.party.onChange` handler in
`MYZDiceAPI`: when a roll finishes (`allFinished`), it walks
`Array.from(this.pendingRolls.entries())`, calls `resolve(result)` for
every entry and deletes each from the map. Returns the ids whose success
continuations were invoked, and the ids left pending. -/
def resolvePendingOnComplete (pending : List String) (rollValues : List (String × Option Int)) :
    List String × List String :=
  if allFinished rollValues then (pending, []) else ([], pending)

/-- Outcome of mounting `ExternalRollHandler`'s effect. -/
inductive HandlerInit where
  | noSub
  | subscribed
deriving DecidableEq

/-- The guard at the top of `ExternalRollHandler`'s effect: without
`window.BroadcastChannel` it logs a warning and returns before creating a
channel or attaching `onmessage`; otherwise it subscribes. -/
def externalRollHandlerInit (hasBroadcastChannel : Bool) : HandlerInit :=
  if hasBroadcastChannel then .subscribed else .noSub

/-- How a `checkMYZDiceAvailability` call starts. -/
inductive ProbeStart where
  | immediateResolve (r : AvailResult)
  | awaitChannel (requestSent : Bool)
deriving DecidableEq

/-- The guard at the top of `checkMYZDiceAvailability`: without
`window.BroadcastChannel` it resolves `{available: false}` at once;
otherwise it opens the channel, sends the `CHECK_AVAILABILITY` request and
awaits events. -/
def checkAvailabilityStart (hasBroadcastChannel : Bool) : ProbeStart :=
  if hasBroadcastChannel then .awaitChannel true else .immediateResolve ⟨false, none⟩

/-- How a `triggerMYZDiceRoll` call starts. -/
inductive TriggerStart where
  | rejectedWith (msg : String)
  | sent (m : Message)
deriving DecidableEq

/-- The guard at the top of `triggerMYZDiceRoll`: without
`window.BroadcastChannel` it rejects its promise with
`Error("BroadcastChannel not supported")`; otherwise it publishes the
`TRIGGER_ROLL` message and resolves. -/
def triggerRollStart (hasBroadcastChannel : Bool) (rollId : String) (dice : List DiceConfig)
    (hidden : Option Bool) : TriggerStart :=
  if hasBroadcastChannel then .sent (.triggerRoll rollId dice hidden)
  else .rejectedWith "BroadcastChannel not supported"

theorem recordGet_recordSet (m : List (String × Int)) (k : String) (v : Int) :
    recordGet (recordSet m k v) k = some v := by
  induction m with
  | nil => simp [recordSet, recordGet]
  | cons p rest ih =>
    by_cases hp : (p.1 == k) = true
    · simp [recordSet, hp, recordGet]
    · have hp' : (p.1 == k) = false := by simpa using hp
      have hset : recordSet (p :: rest) k v = p :: recordSet rest k v := by
        simp [recordSet, hp']
      simp only [recordGet] at ih ⊢
      rw [hset, List.find?_cons_of_neg _ (by simp [hp'])]
      exact ih

theorem probeStep_of_resolved (rid : String) (s : ProbeState) (e : ProbeEvent)
    (h : s.resolved = true) : probeStep rid s e = s := by
  cases e with
  | timeoutFire => simp [probeStep, h]
  | deliver m =>
    cases m with
    | availabilityResponse r a v => simp [probeStep, h]
    | triggerRoll _ _ _ => rfl
    | checkAvailability _ => rfl

theorem probeFold_of_resolved (rid : String) (s : ProbeState) (es : List ProbeEvent)
    (h : s.resolved = true) : es.foldl (probeStep rid) s = s := by
  induction es with
  | nil => rfl
  | cons e es ih => rw [List.foldl_cons, probeStep_of_resolved rid s e h]; exact ih

theorem probeStep_of_not_settling (rid : String) (s : ProbeState) (e : ProbeEvent)
    (h : isSettlingEvent rid e = false) : probeStep rid s e = s := by
  cases e with
  | timeoutFire => simp [isSettlingEvent] at h
  | deliver m =>
    cases m with
    | availabilityResponse r a v =>
      simp only [isSettlingEvent] at h
      simp [probeStep, h]
    | triggerRoll _ _ _ => rfl
    | checkAvailability _ => rfl

theorem probeStep_init_settling (rid : String) (e : ProbeEvent)
    (h : isSettlingEvent rid e = true) :
    probeStep rid probeInitState e = ⟨true, settleValueOf e, 1⟩ := by
  cases e with
  | timeoutFire => rfl
  | deliver m =>
    cases m with
    | availabilityResponse r a v =>
      simp only [isSettlingEvent] at h
      simp [probeStep, probeInitState, settleValueOf, h]
    | triggerRoll _ _ _ => simp [isSettlingEvent] at h
    | checkAvailability _ => simp [isSettlingEvent] at h

theorem find_first_index {α : Type} (p : α → Bool) (l : List α) (a : α)
    (h : l.find? p = some a) :
    p a = true ∧ ∃ i : Nat, l[i]? = some a ∧ ∀ j : Nat, j < i → ∀ b, l[j]? = some b → p b = false := by
  induction l with
  | nil => simp [List.find?] at h
  | cons x xs ih =>
    by_cases hx : p x = true
    · rw [List.find?_cons_of_pos _ hx] at h
      obtain rfl : x = a := by injection h
      exact ⟨hx, 0, by simp, fun j hj => absurd hj (Nat.not_lt_zero j)⟩
    · have hx' : p x = false := by simpa using hx
      rw [List.find?_cons_of_neg _ (by simp [hx'])] at h
      obtain ⟨hpa, i, hi, hbefore⟩ := ih h
      refine ⟨hpa, i + 1, by simpa using hi, ?_⟩
      intro j hj b hb
      cases j with
      | zero =>
        simp only [List.getElem?_cons_zero] at hb
        injection hb with hb
        rw [← hb]; exact hx'
      | succ j' =>
        exact hbefore j' (Nat.lt_of_succ_lt_succ hj) b (by simpa using hb)

theorem computeFinalValue_acc (rv : List (String × Option Int)) (acc : Int) :
    rv.foldl (fun a p => match p.2 with | some v => a + v | none => a) acc
      = acc + rv.foldl (fun a p => match p.2 with | some v => a + v | none => a) 0 := by
  induction rv generalizing acc with
  | nil => simp
  | cons p rest ih =>
    cases hp : p.2 with
    | none => simp only [List.foldl_cons, hp]; exact ih acc
    | some v =>
      simp only [List.foldl_cons, hp]
      rw [ih (acc + v), ih (0 + v)]
      ring

theorem computeFinalValue_eq_sum (rv : List (String × Option Int)) :
    allFinished rv = true → computeFinalValue rv = (rv.map (fun p => p.2.getD 0)).sum := by
  induction rv with
  | nil => intro _; rfl
  | cons p rest ih =>
    intro hall
    simp only [allFinished, List.all_cons, Bool.and_eq_true] at hall
    obtain ⟨hp, hrest⟩ := hall
    obtain ⟨v, hv⟩ := Option.isSome_iff_exists.mp hp
    simp only [computeFinalValue, List.foldl_cons, hv, List.map_cons, List.sum_cons]
    rw [computeFinalValue_acc]
    have := ih hrest
    simp only [computeFinalValue] at this
    rw [this]
    simp

/-- C1: with two distinct roll IDs outstanding in the pending-rolls map, a
single completion signal (all roll values non-null) invokes the success
continuations of BOTH entries and empties the map — the handler resolves
every pending entry, not only the one registered under the completed
roll's ID, contradicting correlation uniqueness. -/
theorem pendingRolls_bulk_resolve :
    (resolvePendingOnComplete ["roll-A", "roll-B"] [("d1", some 4)]).1 = ["roll-A", "roll-B"]
  ∧ "roll-A" ∈ (resolvePendingOnComplete ["roll-A", "roll-B"] [("d1", some 4)]).1
  ∧ "roll-B" ∈ (resolvePendingOnComplete ["roll-A", "roll-B"] [("d1", some 4)]).1
  ∧ "roll-A" ≠ "roll-B"
  ∧ (resolvePendingOnComplete ["roll-A", "roll-B"] [("d1", some 4)]).2 = [] := by
  refine ⟨rfl, ?_, ?_, ?_, rfl⟩ <;> decide

/-- C3 counterexample: a catalog-matched descriptor carrying the supplied
count `-2` contributes count `-2` to the dice-count map — JS `count || 1`
only replaces falsy `0`/`undefined`, so a negative count is NOT coerced to
at least 1. -/
theorem negative_count_not_coerced :
    recordGet (handleRollDiceCounts [⟨"d1", "MYZBASE", "D6"⟩] [⟨"MYZBASE", some (-2)⟩]) "d1"
      = some (-2)
  ∧ ¬ (1 : Int) ≤ -2 := by decide

/-- C3 (amended): a catalog-matched descriptor contributes `count || 1`:
an omitted count defaults to 1 and a supplied 0 is coerced to 1, but any
other supplied value — negative values included — passes through
unchanged. -/
theorem count_default_and_zero_coercion (cat : List Die) (s : String) (c : Option Int)
    (die : Die) (h : findMatchingDie cat s = some die) :
    recordGet (handleRollDiceCounts cat [⟨s, c⟩]) die.id = some (jsOrOne c)
  ∧ jsOrOne none = 1
  ∧ jsOrOne (some 0) = 1
  ∧ ∀ v : Int, v ≠ 0 → jsOrOne (some v) = v := by
  refine ⟨?_, rfl, rfl, ?_⟩
  · have hstep : handleRollDiceCounts cat [⟨s, c⟩] = [(die.id, jsOrOne c)] := by
      simp [handleRollDiceCounts, h, recordSet]
    rw [hstep]
    simp [recordGet]
  · intro v hv
    simp [jsOrOne, hv]

/-- Witness for `count_default_and_zero_coercion` at a concrete catalog and
descriptor. -/
theorem count_default_and_zero_coercion_witness :
    recordGet (handleRollDiceCounts [⟨"d1", "MYZBASE", "D6"⟩] [⟨"MYZBASE", some 5⟩]) "d1"
      = some (jsOrOne (some 5)) :=
  (count_default_and_zero_coercion [⟨"d1", "MYZBASE", "D6"⟩] "MYZBASE" (some 5)
    ⟨"d1", "MYZBASE", "D6"⟩ (by decide)).1

/-- C4: for every `CHECK_AVAILABILITY` message, the responder publishes
exactly one `AVAILABILITY_RESPONSE`, echoing the request's `requestId`,
with `available: true` and version `"1.0.0"`, and starts no roll; a probe
with that same id delivered this response resolves
`{available: true, version: "1.0.0"}`. -/
theorem availability_responder_echoes (diceById : List Die) (rid : String) :
    responderOnMessage diceById (.checkAvailability rid)
      = { published := [.availabilityResponse rid true (some "1.0.0")], started := [] }
  ∧ probeRun rid [.deliver (.availabilityResponse rid true (some "1.0.0"))]
      = ⟨true, some ⟨true, some "1.0.0"⟩, 1⟩ := by
  refine ⟨rfl, ?_⟩
  simp [probeRun, probeStep, probeInitState]

/-- C5: the completion predicate is false whenever some key maps to null,
true exactly when every key maps to a non-null value, and when true the
computed aggregate equals the sum of the per-die values; in particular
`{a: null, b: null}` is incomplete and `{a: 3, b: 5}` is complete with
aggregate 8. -/
theorem completion_predicate_spec (rv : List (String × Option Int)) :
    ((∃ p ∈ rv, p.2 = none) → allFinished rv = false)
  ∧ (allFinished rv = true ↔ ∀ p ∈ rv, p.2 ≠ none)
  ∧ (allFinished rv = true → computeFinalValue rv = (rv.map (fun p => p.2.getD 0)).sum)
  ∧ allFinished [("a", none), ("b", none)] = false
  ∧ allFinished [("a", some 3), ("b", some 5)] = true
  ∧ computeFinalValue [("a", some 3), ("b", some 5)] = 8 := by
  have hiff : allFinished rv = true ↔ ∀ p ∈ rv, p.2 ≠ none := by
    simp [allFinished, List.all_eq_true, Option.isSome_iff_ne_none]
  refine ⟨?_, hiff, computeFinalValue_eq_sum rv, by decide, by decide, by decide⟩
  rintro ⟨p, hp, h2⟩
  cases hb : allFinished rv with
  | false => rfl
  | true => exact absurd h2 (hiff.mp hb p hp)

/-- Witness for `completion_predicate_spec`: its hypotheses discharged at
the concrete records `{a: null}` and `{a: 3, b: 5}`. -/
theorem completion_predicate_spec_witness :
    allFinished [("a", (none : Option Int))] = false
  ∧ computeFinalValue [("a", some 3), ("b", some 5)]
      = (([("a", some 3), ("b", some 5)] : List (String × Option Int)).map
          (fun p => p.2.getD 0)).sum := by
  constructor
  · exact (completion_predicate_spec [("a", none)]).1 ⟨("a", none), by decide, rfl⟩
  · exact (completion_predicate_spec [("a", some 3), ("b", some 5)]).2.2.1 (by decide)

/-- C6: in a request with one catalog-matched descriptor (count omitted)
and one unmatched descriptor, in either order, the unmatched one is
dropped and the resulting dice-count map is exactly the matched die's id
with count 1 — the request is processed, not aborted. -/
theorem unmatched_descriptor_dropped (cat : List Die) (d1 d2 : DiceConfig) (die : Die)
    (h1 : findMatchingDie cat d1.style = some die)
    (h2 : findMatchingDie cat d2.style = none)
    (hc : d1.count = none) :
    handleRollDiceCounts cat [d1, d2] = [(die.id, 1)]
  ∧ handleRollDiceCounts cat [d2, d1] = [(die.id, 1)] := by
  constructor
  · simp [handleRollDiceCounts, h1, h2, hc, recordSet, jsOrOne]
  · simp [handleRollDiceCounts, h1, h2, hc, recordSet, jsOrOne]

/-- Witness for `unmatched_descriptor_dropped`: a one-die catalog, a
matching `MYZBASE` descriptor and an unmatched `MYZSKILL` descriptor. -/
theorem unmatched_descriptor_dropped_witness :
    handleRollDiceCounts [⟨"bd", "MYZBASE", "D6"⟩] [⟨"MYZBASE", none⟩, ⟨"MYZSKILL", none⟩]
      = [("bd", 1)] :=
  (unmatched_descriptor_dropped [⟨"bd", "MYZBASE", "D6"⟩] ⟨"MYZBASE", none⟩ ⟨"MYZSKILL", none⟩
    ⟨"bd", "MYZBASE", "D6"⟩ (by decide) (by decide) rfl).1

/-- C2: over any delivery history, a probe's promise is settled exactly
once when a settling event (matching response or timeout firing) occurs
and never otherwise; the value it settles with is that of the FIRST
settling event — the first matching `AVAILABILITY_RESPONSE` if one arrives
before the timeout, `{available: false}` if the timeout fires first — and
later matching responses are ignored without effect. -/
theorem checkAvailability_settles_once (rid : String) (events : List ProbeEvent) :
    (probeRun rid events).settleCount = (if events.any (isSettlingEvent rid) then 1 else 0)
  ∧ (probeRun rid events).result = firstSettleValue rid events
  ∧ (probeRun rid events).resolved = events.any (isSettlingEvent rid) := by
  induction events with
  | nil => exact ⟨rfl, rfl, rfl⟩
  | cons e es ih =>
    by_cases hse : isSettlingEvent rid e = true
    · have hfold : probeRun rid (e :: es) = ⟨true, settleValueOf e, 1⟩ := by
        simp only [probeRun, List.foldl_cons]
        rw [probeStep_init_settling rid e hse]
        exact probeFold_of_resolved rid _ es rfl
      refine ⟨?_, ?_, ?_⟩
      · rw [hfold]; simp [List.any_cons, hse]
      · rw [hfold, firstSettleValue, List.find?_cons_of_pos _ hse]; rfl
      · rw [hfold]; simp [List.any_cons, hse]
    · have hb : isSettlingEvent rid e = false := by simpa using hse
      have hfold : probeRun rid (e :: es) = probeRun rid es := by
        simp only [probeRun, List.foldl_cons]
        rw [probeStep_of_not_settling rid probeInitState e hb]
      obtain ⟨i1, i2, i3⟩ := ih
      refine ⟨?_, ?_, ?_⟩
      · rw [hfold, i1]; simp [List.any_cons, hb]
      · rw [hfold, i2, firstSettleValue, firstSettleValue,
          List.find?_cons_of_neg _ (by simp [hb])]
      · rw [hfold, i3]; simp [List.any_cons, hb]

/-- C7: descriptor-to-die resolution is deterministic (a pure function of
descriptor and catalog) and returns the FIRST catalog entry, in iteration
order, whose style equals the descriptor's style — and, for the typed
variant used by `MYZDiceAPI`, whose style and type both equal the
descriptor's fields: every earlier entry fails the match predicate. -/
theorem descriptor_resolution_first_match (cat : List Die) (s t : String) (d dt : Die)
    (h : findMatchingDie cat s = some d)
    (ht : findMatchingDieTyped cat s t = some dt) :
    findMatchingDie cat s = some d
  ∧ ((d.style == s) = true
      ∧ ∃ i : Nat, cat[i]? = some d
        ∧ ∀ j : Nat, j < i → ∀ e, cat[j]? = some e → (e.style == s) = false)
  ∧ ((dt.style == s && dt.dtype == t) = true
      ∧ ∃ i : Nat, cat[i]? = some dt
        ∧ ∀ j : Nat, j < i → ∀ e, cat[j]? = some e →
            (e.style == s && e.dtype == t) = false) := by
  have h' : List.find? (fun die => die.style == s) cat = some d := h
  have ht' : List.find? (fun die => die.style == s && die.dtype == t) cat = some dt := ht
  exact ⟨h, find_first_index _ cat d h', find_first_index _ cat dt ht'⟩

/-- Witness for `descriptor_resolution_first_match`: a two-die catalog
where the second entry also matches, so the first one is returned by both
the style-only and the style-and-type resolution. -/
theorem descriptor_resolution_first_match_witness :
    findMatchingDie [⟨"b1", "MYZBASE", "D6"⟩, ⟨"b2", "MYZBASE", "D6"⟩] "MYZBASE"
      = some ⟨"b1", "MYZBASE", "D6"⟩ :=
  (descriptor_resolution_first_match [⟨"b1", "MYZBASE", "D6"⟩, ⟨"b2", "MYZBASE", "D6"⟩]
    "MYZBASE" "D6" ⟨"b1", "MYZBASE", "D6"⟩ ⟨"b1", "MYZBASE", "D6"⟩
    (by decide) (by decide)).1

/-- C8: without `window.BroadcastChannel`, the roll handler mounts as a
no-op without subscribing, the availability probe resolves
`{available: false}` immediately, and `triggerMYZDiceRoll` settles its
promise by rejecting with a "not supported" error — every entry point
degrades to a settled outcome rather than throwing. -/
theorem no_broadcast_channel_graceful :
    externalRollHandlerInit false = HandlerInit.noSub
  ∧ checkAvailabilityStart false = ProbeStart.immediateResolve ⟨false, none⟩
  ∧ ∀ (rollId : String) (dice : List DiceConfig) (hidden : Option Bool),
      triggerRollStart false rollId dice hidden
        = TriggerStart.rejectedWith "BroadcastChannel not supported" :=
  ⟨rfl, rfl, fun _ _ _ => rfl⟩

/-- C9: for every catalog, dice list and hidden flag, the global
`window.MYZDiceAPI.triggerRoll` path builds exactly the same dice-count
map as the broadcast `TRIGGER_ROLL` path (`handleExternalRoll`) and
submits exactly the same roll specification to `startRoll`, for any
interpretation `g` of the shared `getDiceToRoll` helper. -/
theorem global_api_equiv_broadcast {α : Type}
    (g : List (String × Int) → Option Bool → List Die → α)
    (diceById : List Die) (dice : List DiceConfig) (hidden : Option Bool) :
    apiTriggerRollDiceCounts diceById dice = handleRollDiceCounts diceById dice
  ∧ apiTriggerRollSubmitted g diceById dice hidden
      = handleExternalRollSubmitted g diceById dice hidden :=
  ⟨rfl, rfl⟩

/-- C10: when a later entry of the dice list resolves to the same die id
as earlier entries, its stored count OVERWRITES whatever was there: the
final map holds the last entry's `count || 1`, not a sum; concretely, two
`MYZBASE` entries with counts 2 and 3 leave count 3 (not 5). -/
theorem duplicate_style_last_count_wins (cat : List Die) (dice : List DiceConfig)
    (s : String) (c : Option Int) (die : Die)
    (h : findMatchingDie cat s = some die) :
    recordGet (handleRollDiceCounts cat (dice ++ [⟨s, c⟩])) die.id = some (jsOrOne c)
  ∧ recordGet (handleRollDiceCounts [⟨"bd", "MYZBASE", "D6"⟩]
      [⟨"MYZBASE", some 2⟩, ⟨"MYZBASE", some 3⟩]) "bd" = some 3 := by
  constructor
  · have hstep : handleRollDiceCounts cat (dice ++ [⟨s, c⟩])
        = recordSet (handleRollDiceCounts cat dice) die.id (jsOrOne c) := by
      simp [handleRollDiceCounts, List.foldl_append, h]
    rw [hstep, recordGet_recordSet]
  · decide

/-- Witness for `duplicate_style_last_count_wins`: a one-die catalog with
two same-style entries, counts 2 then 3 — the map keeps 3. -/
theorem duplicate_style_last_count_wins_witness :
    recordGet (handleRollDiceCounts [⟨"bd", "MYZBASE", "D6"⟩]
      ([⟨"MYZBASE", some 2⟩] ++ [⟨"MYZBASE", some 3⟩])) "bd" = some (jsOrOne (some 3)) :=
  (duplicate_style_last_count_wins [⟨"bd", "MYZBASE", "D6"⟩] [⟨"MYZBASE", some 2⟩]
    "MYZBASE" (some 3) ⟨"bd", "MYZBASE", "D6"⟩ (by decide)).1
